import Mathlib

/-!
# Level meter widget (src/levelmeter.h, src/levelmeter.cpp)

A shallow embedding of the class CLevelMeter and of its nested class cLED.

Modelling conventions

* The widget is a record of the members the C++ code reads and writes; every
  member function is a function from the state before the call to the state
  after it.
* The Qt objects the class owns (QLabel, QProgressBar, QStackedLayout) are
  records of what this code does to them.  A QLabel additionally counts the
  setPixmap calls made on it, which is the "visual change" of a cell.  A
  QProgressBar records the argument of the last setValue call made on it.
* The macros NUM_STEPS_LED_BAR, YELLOW_BOUND_LED_BAR and RED_BOUND_LED_BAR are
  defined in global.h; their values are parameters of the model.
* A level value is a C++ double: NaN, one of the two infinities, or a finite
  value, which is a rational number.  Comparisons follow the C++ rules (every
  comparison with NaN is false); the conversion of an int index to a double is
  exact.
* The double product 100 * dValue of a finite value is the exact product
  rounded by the floating-point unit; the rounding is the parameter rnd of
  SetValue, and the theorems that depend on it assume of it only what
  IsRounding states.
* QProgressBar::setValue takes an int, so the product is converted implicitly:
  the fractional part is dropped, and the behaviour is undefined when the
  result does not fit an int (32 bits).  SetValue therefore returns an Option:
  none stands for undefined behaviour.
-/

namespace LevelMeter

/-! ## Data model -/

/-- The three macros of global.h the level meter uses.  They are int
constants; the step count is not negative. -/
structure Global where
  NUM_STEPS_LED_BAR : Nat
  YELLOW_BOUND_LED_BAR : Int
  RED_BOUND_LED_BAR : Int

/-- Enumeration CLevelMeter::ELevelMeterType. -/
inductive ELevelMeterType where
  | MT_LED
  | MT_BAR
  | MT_SLIM_BAR
  deriving DecidableEq, Repr

/-- Enumeration CLevelMeter::cLED::ELightColor. -/
inductive ELightColor where
  | RL_DISABLED
  | RL_BLACK
  | RL_GREEN
  | RL_YELLOW
  | RL_RED
  deriving DecidableEq, Repr

/-- The pixmaps a LED label can show: the empty QPixmap() and the four bitmaps
loaded by the cLED constructor. -/
inductive QPixmap where
  | null
  | BitmCubeRoundBlack
  | BitmCubeRoundGreen
  | BitmCubeRoundYellow
  | BitmCubeRoundRed
  deriving DecidableEq, Repr

/-- A QLabel as the LED uses it: the pixmap it shows and the number of
setPixmap calls it has received. -/
structure QLabel where
  pixmap : QPixmap
  nSetPixmap : Nat
  deriving DecidableEq, Repr

/-- The call pLEDLabel->setPixmap ( p ). -/
def QLabel.setPixmap (l : QLabel) (p : QPixmap) : QLabel :=
  { pixmap := p, nSetPixmap := l.nSetPixmap + 1 }

/-- Class CLevelMeter::cLED: the stored colour and the label. -/
structure cLED where
  eCurLightColor : ELightColor
  pLEDLabel : QLabel
  deriving DecidableEq, Repr

/-- The two style sheets SetLevelMeterType installs on the bar (width 15px for
MT_BAR, width 4px without border for MT_SLIM_BAR), and no style sheet. -/
inductive QStyleSheet where
  | unset
  | barWidth15px
  | slimWidth4px
  deriving DecidableEq, Repr

/-- A QProgressBar as the level meter uses it: the range given to setRange, the
argument of the last setValue call made on it (none before the first call) and
the style sheet. -/
structure QProgressBar where
  minimum : Int
  maximum : Int
  lastSetValue : Option Int
  styleSheet : QStyleSheet
  deriving DecidableEq, Repr

/-- A fresh QProgressBar(): range 0..100, no setValue call yet, no style
sheet. -/
def QProgressBar.ctor : QProgressBar :=
  { minimum := 0, maximum := 100, lastSetValue := none, styleSheet := QStyleSheet.unset }

/-- The call pBarMeter->setRange ( lo, hi ). -/
def QProgressBar.setRange (b : QProgressBar) (lo hi : Int) : QProgressBar :=
  { b with minimum := lo, maximum := hi }

/-- The call pBarMeter->setValue ( v ), v already converted to int. -/
def QProgressBar.setValue (b : QProgressBar) (v : Int) : QProgressBar :=
  { b with lastSetValue := some v }

/-- The call pBarMeter->setStyleSheet ( sheet ). -/
def QProgressBar.setStyleSheet (b : QProgressBar) (sheet : QStyleSheet) : QProgressBar :=
  { b with styleSheet := sheet }

/-- A QStackedLayout as the level meter uses it: index 0 is the LED meter,
index 1 the bar meter. -/
structure QStackedLayout where
  currentIndex : Int
  deriving DecidableEq, Repr

/-- The call pStackedLayout->setCurrentIndex ( idx ). -/
def QStackedLayout.setCurrentIndex (_l : QStackedLayout) (idx : Int) : QStackedLayout :=
  { currentIndex := idx }

/-- The event types changeEvent distinguishes. -/
inductive QEventType where
  | EnabledChange
  | Other
  deriving DecidableEq, Repr

/-! ## The type double -/

/-- A C++ double: NaN, minus infinity, plus infinity, or a finite value. -/
inductive Double where
  | nan
  | negInf
  | posInf
  | finite (q : ℚ)
  deriving DecidableEq

/-- The C++ comparison a < b of two doubles; false when an operand is NaN. -/
def Double.lt : Double → Double → Bool
  | Double.finite a, Double.finite b => decide (a < b)
  | Double.negInf, Double.finite _ => true
  | Double.negInf, Double.posInf => true
  | Double.finite _, Double.posInf => true
  | _, _ => false

/-- The C++ comparison a <= b of two doubles; false when an operand is NaN. -/
def Double.le : Double → Double → Bool
  | Double.finite a, Double.finite b => decide (a ≤ b)
  | Double.negInf, Double.negInf => true
  | Double.negInf, Double.finite _ => true
  | Double.negInf, Double.posInf => true
  | Double.finite _, Double.posInf => true
  | Double.posInf, Double.posInf => true
  | _, _ => false

instance : LT Double := ⟨fun a b => Double.lt a b = true⟩

instance : LE Double := ⟨fun a b => Double.le a b = true⟩

instance (a b : Double) : Decidable (a < b) :=
  inferInstanceAs (Decidable (Double.lt a b = true))

instance (a b : Double) : Decidable (a ≤ b) :=
  inferInstanceAs (Decidable (Double.le a b = true))

/-- Conversion of an int to double, as applied to iLEDIdx in the comparison
iLEDIdx < dValue: exact. -/
def Double.ofInt (i : Int) : Double :=
  Double.finite (i : ℚ)

/-- The double product 100 * d.  NaN and the infinities are kept; the exact
product of a finite value is rounded by rnd. -/
def Double.mul100 (rnd : ℚ → Double) : Double → Double
  | Double.nan => Double.nan
  | Double.negInf => Double.negInf
  | Double.posInf => Double.posInf
  | Double.finite q => rnd (100 * q)

/-- Smallest value of the type int (32 bits). -/
def INT_MIN : Int := -2147483648

/-- Largest value of the type int (32 bits). -/
def INT_MAX : Int := 2147483647

/-- A finite value with its fractional part dropped (rounding toward zero). -/
def truncate (q : ℚ) : Int :=
  if 0 ≤ q then ⌊q⌋ else ⌈q⌉

/-- Implicit conversion of a double to int, as at the call
pBarMeter->setValue ( 100 * dValue ): the fractional part is dropped; the
behaviour is undefined (none) for NaN, for the infinities and when the result
does not fit an int. -/
def doubleToInt : Double → Option Int
  | Double.finite q =>
    if INT_MIN ≤ truncate q ∧ truncate q ≤ INT_MAX then some (truncate q) else none
  | _ => none

/-- What the theorems assume of the rounding of an exact product to the double
the multiplication returns: an integer of magnitude up to 2^53 is a double and
is returned as it is, and rounding keeps the order. -/
structure IsRounding (rnd : ℚ → Double) : Prop where
  exact_int : ∀ k : Int, -(2 ^ 53) ≤ k → k ≤ 2 ^ 53 → rnd (k : ℚ) = Double.finite (k : ℚ)
  mono : ∀ p q : ℚ, p ≤ q → rnd p ≤ rnd q

/-- The rounding that returns the exact product: the rounding of the
floating-point unit wherever the exact product is a double. -/
def exactProduct (p : ℚ) : Double :=
  Double.finite p

/-- Class CLevelMeter.  The field enabled is QWidget::isEnabled(); vecpLEDs is
the vector of NUM_STEPS_LED_BAR cells created by the constructor. -/
structure CLevelMeter (g : Global) where
  enabled : Bool
  pStackedLayout : QStackedLayout
  eLevelMeterType : ELevelMeterType
  vecpLEDs : Fin g.NUM_STEPS_LED_BAR → cLED
  pBarMeter : QProgressBar

/-! ## cLED -/

/-- Constructor cLED::cLED: the label shows the black bitmap, the stored colour
is RL_BLACK. -/
def cLED.ctor : cLED :=
  { eCurLightColor := ELightColor.RL_BLACK,
    pLEDLabel := QLabel.setPixmap { pixmap := QPixmap.null, nSetPixmap := 0 }
      QPixmap.BitmCubeRoundBlack }

/-- Member cLED::setColor. -/
def cLED.setColor (led : cLED) (eNewColor : ELightColor) : cLED :=
  if eNewColor ≠ led.eCurLightColor then
    { eCurLightColor := eNewColor,
      pLEDLabel :=
        match eNewColor with
        | ELightColor.RL_DISABLED => led.pLEDLabel.setPixmap QPixmap.null
        | ELightColor.RL_BLACK => led.pLEDLabel.setPixmap QPixmap.BitmCubeRoundBlack
        | ELightColor.RL_GREEN => led.pLEDLabel.setPixmap QPixmap.BitmCubeRoundGreen
        | ELightColor.RL_YELLOW => led.pLEDLabel.setPixmap QPixmap.BitmCubeRoundYellow
        | ELightColor.RL_RED => led.pLEDLabel.setPixmap QPixmap.BitmCubeRoundRed }
  else
    led

/-! ## CLevelMeter -/

/-- The loop
for ( int iLEDIdx = 0; iLEDIdx < NUM_STEPS_LED_BAR; iLEDIdx++ ) body
where the body acts on vecpLEDs[iLEDIdx] only. -/
def forLEDIdx {n : Nat} (body : Fin n → cLED → cLED) (vec : Fin n → cLED) : Fin n → cLED :=
  (List.finRange n).foldl (fun v iLEDIdx => Function.update v iLEDIdx (body iLEDIdx (v iLEDIdx))) vec

/-- Member CLevelMeter::Reset. -/
def Reset {g : Global} (bEnabled : Bool) (m : CLevelMeter g) : CLevelMeter g :=
  { m with
    vecpLEDs := forLEDIdx (fun _ led =>
      if bEnabled then
        led.setColor ELightColor.RL_BLACK
      else
        led.setColor ELightColor.RL_DISABLED) m.vecpLEDs }

/-- Member CLevelMeter::changeEvent. -/
def changeEvent {g : Global} (curEvent : QEventType) (m : CLevelMeter g) : CLevelMeter g :=
  if curEvent = QEventType.EnabledChange then
    Reset m.enabled m
  else
    m

/-- Member CLevelMeter::SetLevelMeterType. -/
def SetLevelMeterType {g : Global} (eNType : ELevelMeterType) (m : CLevelMeter g) :
    CLevelMeter g :=
  let m1 : CLevelMeter g := { m with eLevelMeterType := eNType }
  match eNType with
  | ELevelMeterType.MT_LED =>
    { m1 with pStackedLayout := m1.pStackedLayout.setCurrentIndex 0 }
  | ELevelMeterType.MT_BAR =>
    { m1 with
      pStackedLayout := m1.pStackedLayout.setCurrentIndex 1,
      pBarMeter := m1.pBarMeter.setStyleSheet QStyleSheet.barWidth15px }
  | ELevelMeterType.MT_SLIM_BAR =>
    { m1 with
      vecpLEDs := forLEDIdx (fun _ led => led.setColor ELightColor.RL_DISABLED) m1.vecpLEDs,
      pStackedLayout := m1.pStackedLayout.setCurrentIndex 1,
      pBarMeter := m1.pBarMeter.setStyleSheet QStyleSheet.slimWidth4px }

/-- Member CLevelMeter::SetValue.  The argument rnd rounds the exact product
100 * dValue to the double the multiplication returns; the result is none when
the conversion of that product to int is undefined. -/
def SetValue {g : Global} (rnd : ℚ → Double) (dValue : Double) (m : CLevelMeter g) :
    Option (CLevelMeter g) :=
  if m.enabled then
    match m.eLevelMeterType with
    | ELevelMeterType.MT_LED =>
      some { m with
        vecpLEDs := forLEDIdx (fun iLEDIdx led =>
          if Double.ofInt ((iLEDIdx : Nat) : Int) < dValue then
            if ((iLEDIdx : Nat) : Int) < g.YELLOW_BOUND_LED_BAR then
              led.setColor ELightColor.RL_GREEN
            else
              if ((iLEDIdx : Nat) : Int) < g.RED_BOUND_LED_BAR then
                led.setColor ELightColor.RL_YELLOW
              else
                led.setColor ELightColor.RL_RED
          else
            led.setColor ELightColor.RL_BLACK) m.vecpLEDs }
    | ELevelMeterType.MT_BAR =>
      (doubleToInt (Double.mul100 rnd dValue)).map
        (fun k => { m with pBarMeter := m.pBarMeter.setValue k })
    | ELevelMeterType.MT_SLIM_BAR =>
      (doubleToInt (Double.mul100 rnd dValue)).map
        (fun k => { m with pBarMeter := m.pBarMeter.setValue k })
  else
    some m

/-- Constructor CLevelMeter::CLevelMeter.  The argument bEnabled is the enabled
state the new widget has (a widget is enabled unless its parent is not). -/
def CLevelMeter.ctor (g : Global) (bEnabled : Bool) : CLevelMeter g :=
  SetLevelMeterType ELevelMeterType.MT_BAR
    { enabled := bEnabled,
      pStackedLayout := { currentIndex := 0 },
      eLevelMeterType := ELevelMeterType.MT_BAR,
      vecpLEDs := fun _ => cLED.ctor,
      pBarMeter := QProgressBar.ctor.setRange 0 (100 * (g.NUM_STEPS_LED_BAR : Int)) }

/-- Number of cells whose stored colour is not RL_BLACK. -/
def numNotBlack {g : Global} (m : CLevelMeter g) : Nat :=
  ((List.finRange g.NUM_STEPS_LED_BAR).filter
    (fun i => decide ((m.vecpLEDs i).eCurLightColor ≠ ELightColor.RL_BLACK))).length

/-- The macro values of the worked example: 20 steps, yellow from 15, red
from 18. -/
def exampleGlobal : Global :=
  { NUM_STEPS_LED_BAR := 20, YELLOW_BOUND_LED_BAR := 15, RED_BOUND_LED_BAR := 18 }

/-- An enabled meter with the macro values of the worked example, switched to
the LED display after construction. -/
def exampleLedMeter : CLevelMeter exampleGlobal :=
  SetLevelMeterType ELevelMeterType.MT_LED (CLevelMeter.ctor exampleGlobal true)

/-! ## Auxiliary lemmas -/

theorem foldl_update_apply {n : Nat} (body : Fin n → cLED → cLED) (l : List (Fin n))
    (hl : l.Nodup) (vec : Fin n → cLED) (i : Fin n) :
    (l.foldl (fun v j => Function.update v j (body j (v j))) vec) i
      = if i ∈ l then body i (vec i) else vec i := by
  induction l generalizing vec with
  | nil => simp
  | cons a l ih =>
    rw [List.nodup_cons] at hl
    rw [List.foldl_cons, ih hl.2]
    by_cases hia : i = a
    · subst hia
      simp [hl.1]
    · simp [hia, Function.update_noteq hia]

/-- After the loop over all indices, cell i is the body applied to the old
cell i. -/
theorem forLEDIdx_apply {n : Nat} (body : Fin n → cLED → cLED) (vec : Fin n → cLED)
    (i : Fin n) : forLEDIdx body vec i = body i (vec i) := by
  unfold forLEDIdx
  rw [foldl_update_apply body _ (List.nodup_finRange n) vec i]
  simp [List.mem_finRange]

theorem setColor_color (led : cLED) (c : ELightColor) :
    (led.setColor c).eCurLightColor = c := by
  unfold cLED.setColor
  split
  · rfl
  · rename_i h
    exact (not_not.mp h).symm

theorem setColor_count (led : cLED) (c : ELightColor) :
    (led.setColor c).pLEDLabel.nSetPixmap
      = led.pLEDLabel.nSetPixmap + (if c = led.eCurLightColor then 0 else 1) := by
  unfold cLED.setColor
  by_cases h : c = led.eCurLightColor
  · simp [h]
  · cases c <;> simp [h, QLabel.setPixmap]

theorem setColor_same (led : cLED) (c : ELightColor) (h : c = led.eCurLightColor) :
    led.setColor c = led := by
  unfold cLED.setColor
  simp [h]

theorem length_filter_range_lt (n k : Nat) :
    ((List.range n).filter (fun j => decide (j < k))).length = min n k := by
  induction n with
  | zero => simp
  | succ n ih =>
    rw [List.range_succ, List.filter_append, List.length_append, ih]
    by_cases h : n < k
    · simp [List.filter_cons, h]
      omega
    · simp [List.filter_cons, h]
      omega

theorem length_filter_finRange_lt (n k : Nat) :
    ((List.finRange n).filter (fun i : Fin n => decide ((i : Nat) < k))).length = min n k := by
  have hmap : ((List.finRange n).filter (fun i : Fin n => decide ((i : Nat) < k))).map
      (fun i : Fin n => (i : Nat)) = (List.range n).filter (fun j => decide (j < k)) := by
    rw [← List.map_coe_finRange n, List.filter_map]
    rfl
  rw [← length_filter_range_lt n k, ← hmap, List.length_map]


/-! ### Comparisons of doubles -/

theorem Double.lt_iff (a b : Double) : a < b ↔ Double.lt a b = true := Iff.rfl

theorem Double.le_iff (a b : Double) : a ≤ b ↔ Double.le a b = true := Iff.rfl

theorem Double.ofInt_lt_finite (i : Int) (q : ℚ) :
    Double.ofInt i < Double.finite q ↔ (i : ℚ) < q := by
  rw [Double.lt_iff]
  simp [Double.ofInt, Double.lt]

theorem Double.finite_le_finite (a b : ℚ) :
    Double.finite a ≤ Double.finite b ↔ a ≤ b := by
  rw [Double.le_iff]
  simp [Double.le]

theorem Double.not_nan_le (a : Double) : ¬ Double.nan ≤ a := by
  rw [Double.le_iff]
  cases a <;> simp [Double.le]

theorem Double.not_lt_negInf (a : Double) : ¬ a < Double.negInf := by
  rw [Double.lt_iff]
  cases a <;> simp [Double.lt]

/-- For a value that is not NaN, the comparison a <= b is the negation of
b < a. -/
theorem Double.le_iff_not_lt (a b : Double) (ha : a ≠ Double.nan) (hb : b ≠ Double.nan) :
    a ≤ b ↔ ¬ b < a := by
  rw [Double.le_iff, Double.lt_iff]
  cases a <;> cases b <;> simp [Double.le, Double.lt] at ha hb ⊢

/-- A double at least a finite value is plus infinity or a finite value at
least as large. -/
theorem Double.finite_le_cases (a : ℚ) (x : Double) (h : Double.finite a ≤ x) :
    x = Double.posInf ∨ ∃ r, x = Double.finite r ∧ a ≤ r := by
  rw [Double.le_iff] at h
  cases x with
  | nan => simp [Double.le] at h
  | negInf => simp [Double.le] at h
  | posInf => exact Or.inl rfl
  | finite r => exact Or.inr ⟨r, rfl, by simpa [Double.le] using h⟩

/-- A double at most a finite value is minus infinity or a finite value at
most as large. -/
theorem Double.le_finite_cases (x : Double) (b : ℚ) (h : x ≤ Double.finite b) :
    x = Double.negInf ∨ ∃ r, x = Double.finite r ∧ r ≤ b := by
  rw [Double.le_iff] at h
  cases x with
  | nan => simp [Double.le] at h
  | negInf => exact Or.inl rfl
  | posInf => simp [Double.le] at h
  | finite r => exact Or.inr ⟨r, rfl, by simpa [Double.le] using h⟩

/-! ### SetValue in LED mode -/

/-- In LED mode on an enabled meter SetValue returns a state. -/
theorem SetValue_led_eq {g : Global} (rnd : ℚ → Double) (v : Double) (m : CLevelMeter g)
    (hen : m.enabled = true) (hty : m.eLevelMeterType = ELevelMeterType.MT_LED) :
    SetValue rnd v m
      = some { m with
          vecpLEDs := forLEDIdx (fun iLEDIdx led =>
            if Double.ofInt ((iLEDIdx : Nat) : Int) < v then
              if ((iLEDIdx : Nat) : Int) < g.YELLOW_BOUND_LED_BAR then
                led.setColor ELightColor.RL_GREEN
              else
                if ((iLEDIdx : Nat) : Int) < g.RED_BOUND_LED_BAR then
                  led.setColor ELightColor.RL_YELLOW
                else
                  led.setColor ELightColor.RL_RED
            else
              led.setColor ELightColor.RL_BLACK) m.vecpLEDs } := by
  unfold SetValue
  simp only [hen, hty, if_true]

/-- In LED mode on an enabled meter, SetValue gives cell i the colour chosen by
the loop body. -/
theorem SetValue_led_cell {g : Global} (rnd : ℚ → Double) (v : Double) (m m' : CLevelMeter g)
    (hen : m.enabled = true) (hty : m.eLevelMeterType = ELevelMeterType.MT_LED)
    (h : SetValue rnd v m = some m') (i : Fin g.NUM_STEPS_LED_BAR) :
    m'.vecpLEDs i
      = (m.vecpLEDs i).setColor
          (if Double.ofInt ((i : Nat) : Int) < v then
            (if ((i : Nat) : Int) < g.YELLOW_BOUND_LED_BAR then ELightColor.RL_GREEN
             else if ((i : Nat) : Int) < g.RED_BOUND_LED_BAR then ELightColor.RL_YELLOW
             else ELightColor.RL_RED)
           else ELightColor.RL_BLACK) := by
  rw [SetValue_led_eq rnd v m hen hty] at h
  injection h with h
  subst h
  simp only [forLEDIdx_apply]
  split_ifs <;> rfl

theorem SetValue_led_color {g : Global} (rnd : ℚ → Double) (v : Double) (m m' : CLevelMeter g)
    (hen : m.enabled = true) (hty : m.eLevelMeterType = ELevelMeterType.MT_LED)
    (h : SetValue rnd v m = some m') (i : Fin g.NUM_STEPS_LED_BAR) :
    (m'.vecpLEDs i).eCurLightColor
      = (if Double.ofInt ((i : Nat) : Int) < v then
          (if ((i : Nat) : Int) < g.YELLOW_BOUND_LED_BAR then ELightColor.RL_GREEN
           else if ((i : Nat) : Int) < g.RED_BOUND_LED_BAR then ELightColor.RL_YELLOW
           else ELightColor.RL_RED)
         else ELightColor.RL_BLACK) := by
  rw [SetValue_led_cell rnd v m m' hen hty h i, setColor_color]

/-- The cells SetValue writes depend on the level value only through the
comparisons of the indices with it. -/
theorem SetValue_led_congr {g : Global} (rnd : ℚ → Double) (v w : Double)
    (m mv mw : CLevelMeter g)
    (hen : m.enabled = true) (hty : m.eLevelMeterType = ELevelMeterType.MT_LED)
    (hv : SetValue rnd v m = some mv) (hw : SetValue rnd w m = some mw)
    (h : ∀ i : Fin g.NUM_STEPS_LED_BAR,
      (Double.ofInt ((i : Nat) : Int) < v ↔ Double.ofInt ((i : Nat) : Int) < w)) :
    mv.vecpLEDs = mw.vecpLEDs := by
  funext i
  rw [SetValue_led_cell rnd v m mv hen hty hv i, SetValue_led_cell rnd w m mw hen hty hw i]
  by_cases hlt : Double.ofInt ((i : Nat) : Int) < v
  · rw [if_pos hlt, if_pos ((h i).1 hlt)]
  · rw [if_neg hlt, if_neg (fun hw2 => hlt ((h i).2 hw2))]

/-- In LED mode on an enabled meter the cells that are not black after
SetValue ( v ), v finite, are those with index below v. -/
theorem numNotBlack_SetValue {g : Global} (rnd : ℚ → Double) (q : ℚ) (m m' : CLevelMeter g)
    (hen : m.enabled = true) (hty : m.eLevelMeterType = ELevelMeterType.MT_LED)
    (h : SetValue rnd (Double.finite q) m = some m') :
    numNotBlack m' = min g.NUM_STEPS_LED_BAR ⌈q⌉.toNat := by
  unfold numNotBlack
  rw [← length_filter_finRange_lt g.NUM_STEPS_LED_BAR ⌈q⌉.toNat]
  congr 1
  apply List.filter_congr
  intro i _
  rw [SetValue_led_color rnd _ m m' hen hty h i]
  have hlt : (Double.ofInt ((i : Nat) : Int) < Double.finite q) ↔ ((i : Nat) < ⌈q⌉.toNat) := by
    rw [Double.ofInt_lt_finite, Int.lt_toNat, Int.lt_ceil]
  by_cases hv : Double.ofInt ((i : Nat) : Int) < Double.finite q
  · have h2 := hlt.1 hv
    simp only [if_pos hv, h2, decide_True]
    split_ifs <;> decide
  · have h2 : ¬ ((i : Nat) < ⌈q⌉.toNat) := fun h => hv (hlt.2 h)
    simp [hv, h2]

theorem truncate_5_2 : truncate (5 / 2) = 2 := by
  unfold truncate
  rw [if_pos (by norm_num)]
  rw [Int.floor_eq_iff]
  constructor <;> norm_num

theorem ceil_5_2 : ⌈(5 / 2 : ℚ)⌉ = 3 := by
  rw [Int.ceil_eq_iff]
  constructor <;> norm_num

theorem lt_ceil_cast (i : Nat) (q : ℚ) :
    (Double.ofInt (i : Int) < Double.finite q)
      ↔ (Double.ofInt (i : Int) < Double.finite ((⌈q⌉ : Int) : ℚ)) := by
  rw [Double.ofInt_lt_finite, Double.ofInt_lt_finite, Int.cast_lt, Int.lt_ceil]

/-! ### SetValue in the bar modes -/

/-- In a bar mode on an enabled meter, SetValue hands the converted product to
the bar and touches nothing else; it is undefined when the conversion is. -/
theorem SetValue_bar_eq {g : Global} (rnd : ℚ → Double) (v : Double) (m : CLevelMeter g)
    (hen : m.enabled = true)
    (hty : m.eLevelMeterType = ELevelMeterType.MT_BAR
      ∨ m.eLevelMeterType = ELevelMeterType.MT_SLIM_BAR) :
    SetValue rnd v m
      = (doubleToInt (Double.mul100 rnd v)).map
          (fun k => { m with pBarMeter := m.pBarMeter.setValue k }) := by
  unfold SetValue
  rcases hty with h | h <;> simp only [hen, h, if_true]

theorem truncate_intCast (k : Int) : truncate (k : ℚ) = k := by
  unfold truncate
  split_ifs <;> simp

theorem truncate_between (r : ℚ) (a b : Int) (ha : (a : ℚ) ≤ r) (hb : r ≤ (b : ℚ)) :
    a ≤ truncate r ∧ truncate r ≤ b := by
  have h1 : a ≤ ⌊r⌋ := Int.le_floor.mpr ha
  have h2 : ⌈r⌉ ≤ b := Int.ceil_le.mpr hb
  have h3 : ⌊r⌋ ≤ ⌈r⌉ := Int.floor_le_ceil r
  unfold truncate
  split_ifs <;> constructor <;> omega

theorem truncate_25_2 : truncate (25 / 2) = 12 := by
  unfold truncate
  rw [if_pos (by norm_num)]
  rw [Int.floor_eq_iff]
  constructor <;> norm_num

theorem doubleToInt_finite_of_fits (r : ℚ) (hlo : INT_MIN ≤ truncate r)
    (hhi : truncate r ≤ INT_MAX) : doubleToInt (Double.finite r) = some (truncate r) := by
  show (if INT_MIN ≤ truncate r ∧ truncate r ≤ INT_MAX then some (truncate r) else none) = _
  rw [if_pos ⟨hlo, hhi⟩]

theorem doubleToInt_finite_of_large (r : ℚ) (h : INT_MAX < truncate r) :
    doubleToInt (Double.finite r) = none := by
  show (if INT_MIN ≤ truncate r ∧ truncate r ≤ INT_MAX then some (truncate r) else none) = _
  rw [if_neg (fun hc => absurd hc.2 (not_le.mpr h))]

theorem doubleToInt_finite_of_small (r : ℚ) (h : truncate r < INT_MIN) :
    doubleToInt (Double.finite r) = none := by
  show (if INT_MIN ≤ truncate r ∧ truncate r ≤ INT_MAX then some (truncate r) else none) = _
  rw [if_neg (fun hc => absurd hc.1 (not_le.mpr h))]

/-- The exact product is a rounding in the sense of IsRounding. -/
theorem isRounding_exactProduct : IsRounding exactProduct where
  exact_int := fun _ _ _ => rfl
  mono := fun p q h => (Double.finite_le_finite p q).mpr h

/-- A rounded value lies between the integers next to the exact value, as long
as these are of magnitude up to 2^53. -/
theorem IsRounding.between {rnd : ℚ → Double} (hrnd : IsRounding rnd) (p : ℚ)
    (hlo : -(2 ^ 53) ≤ ⌊p⌋) (hhi : ⌈p⌉ ≤ 2 ^ 53) :
    ∃ r, rnd p = Double.finite r ∧ ((⌊p⌋ : Int) : ℚ) ≤ r ∧ r ≤ ((⌈p⌉ : Int) : ℚ) := by
  have hfc : ⌊p⌋ ≤ ⌈p⌉ := Int.floor_le_ceil p
  have h1 := hrnd.mono _ _ (Int.floor_le p)
  rw [hrnd.exact_int ⌊p⌋ hlo (le_trans hfc hhi)] at h1
  have h2 := hrnd.mono _ _ (Int.le_ceil p)
  rw [hrnd.exact_int ⌈p⌉ (le_trans hlo hfc) hhi] at h2
  rcases Double.finite_le_cases _ _ h1 with hinf | ⟨r, hr, hle⟩
  · rw [hinf] at h2
    rcases Double.le_finite_cases _ _ h2 with h | ⟨_, h, _⟩ <;> cases h
  · refine ⟨r, hr, hle, ?_⟩
    rw [hr] at h2
    exact (Double.finite_le_finite _ _).mp h2

/-- The conversion to int of the rounding of a value of 2^31 or more is
undefined. -/
theorem IsRounding.large {rnd : ℚ → Double} (hrnd : IsRounding rnd) (p : ℚ)
    (hp : (2 : ℚ) ^ 31 ≤ p) : doubleToInt (rnd p) = none := by
  have h1 := hrnd.mono (((2 ^ 31 : Int) : ℚ)) p (by push_cast; exact hp)
  rw [hrnd.exact_int (2 ^ 31) (by norm_num) (by norm_num)] at h1
  rcases Double.finite_le_cases _ _ h1 with hinf | ⟨r, hr, hle⟩
  · rw [hinf]
    rfl
  · rw [hr]
    apply doubleToInt_finite_of_large
    have hb := (truncate_between r (2 ^ 31) (⌈r⌉) hle (Int.le_ceil r)).1
    unfold INT_MAX
    omega

/-- The conversion to int of the rounding of a value of -2^31 - 1 or less is
undefined. -/
theorem IsRounding.small {rnd : ℚ → Double} (hrnd : IsRounding rnd) (p : ℚ)
    (hp : p ≤ -(2 : ℚ) ^ 31 - 1) : doubleToInt (rnd p) = none := by
  have h1 := hrnd.mono p (((-(2 ^ 31) - 1 : Int) : ℚ)) (by push_cast; linarith)
  rw [hrnd.exact_int (-(2 ^ 31) - 1) (by norm_num) (by norm_num)] at h1
  rcases Double.le_finite_cases _ _ h1 with hinf | ⟨r, hr, hle⟩
  · rw [hinf]
    rfl
  · rw [hr]
    apply doubleToInt_finite_of_small
    have hb := (truncate_between r (⌊r⌋) (-(2 ^ 31) - 1) (Int.floor_le r) hle).2
    unfold INT_MIN
    omega

/-! ## The LED cell -/

/-- C6: for a cell with stored colour c and any new colour c', setColor(c')
makes a pixmap update (one more setPixmap call on the label) if and only if c'
differs from c, it leaves the label untouched if and only if c' equals c, and
in every case the stored colour after the call is c'. -/
theorem setColor_updates_iff_differs (led : cLED) (c' : ELightColor) :
    ((led.setColor c').pLEDLabel.nSetPixmap = led.pLEDLabel.nSetPixmap + 1
        ↔ c' ≠ led.eCurLightColor)
    ∧ ((led.setColor c').pLEDLabel = led.pLEDLabel ↔ c' = led.eCurLightColor)
    ∧ (led.setColor c').eCurLightColor = c' := by
  refine ⟨?_, ?_, setColor_color led c'⟩
  · rw [setColor_count]
    by_cases h : c' = led.eCurLightColor <;> simp [h]
  · constructor
    · intro hl
      by_contra hne
      have hc := setColor_count led c'
      rw [hl] at hc
      simp [hne] at hc
    · intro h
      rw [setColor_same led c' h]

/-- C7, as stated, fails: on a freshly constructed cell (stored colour
RL_BLACK) two calls setColor(RL_BLACK) make no pixmap update at all, not
one. -/
theorem setColor_twice_same_colour_no_update :
    ((cLED.ctor.setColor ELightColor.RL_BLACK).setColor ELightColor.RL_BLACK).pLEDLabel.nSetPixmap
        = cLED.ctor.pLEDLabel.nSetPixmap
    ∧ ((cLED.ctor.setColor ELightColor.RL_BLACK).setColor ELightColor.RL_BLACK).pLEDLabel.nSetPixmap
        ≠ cLED.ctor.pLEDLabel.nSetPixmap + 1 := by
  decide

/-- C7, amended: two calls setColor(c) in a row make at most one pixmap
update: exactly one when c differs from the colour stored before the first
call, none when it equals it; the second call never changes the cell. -/
theorem setColor_twice (led : cLED) (c : ELightColor) :
    ((led.setColor c).setColor c).pLEDLabel.nSetPixmap
        = led.pLEDLabel.nSetPixmap + (if c = led.eCurLightColor then 0 else 1)
    ∧ (led.setColor c).setColor c = led.setColor c := by
  have h2 : (led.setColor c).setColor c = led.setColor c :=
    setColor_same _ c (setColor_color led c).symm
  rw [h2]
  exact ⟨setColor_count led c, rfl⟩

/-! ## Reset, SetLevelMeterType and the disabled widget -/

/-- C3: on a disabled widget SetValue changes nothing: it returns the state it
was given, whole (every LED cell, the bar with the value last set on it, the
display mode), for every level value, NaN and the infinities included, and
every display mode. -/
theorem SetValue_disabled {g : Global} (rnd : ℚ → Double) (v : Double) (m : CLevelMeter g)
    (hdis : m.enabled = false) : SetValue rnd v m = some m := by
  unfold SetValue
  simp [hdis]

/-- C3 at a concrete input: a disabled meter with 20 steps, level value 16. -/
theorem SetValue_disabled_witness :
    (CLevelMeter.ctor exampleGlobal false).enabled = false
    ∧ SetValue exactProduct (Double.finite 16) (CLevelMeter.ctor exampleGlobal false)
        = some (CLevelMeter.ctor exampleGlobal false) :=
  ⟨rfl, SetValue_disabled exactProduct (Double.finite 16)
    (CLevelMeter.ctor exampleGlobal false) rfl⟩

/-- C4: after Reset(true) every cell is RL_BLACK and after Reset(false) every
cell is RL_DISABLED, whatever the cells and the display mode were; the
EnabledChange event runs Reset with the widget's enabled state. -/
theorem Reset_cells {g : Global} (m : CLevelMeter g) :
    (∀ i, ((Reset true m).vecpLEDs i).eCurLightColor = ELightColor.RL_BLACK)
    ∧ (∀ i, ((Reset false m).vecpLEDs i).eCurLightColor = ELightColor.RL_DISABLED)
    ∧ changeEvent QEventType.EnabledChange m = Reset m.enabled m := by
  refine ⟨?_, ?_, ?_⟩
  · intro i
    simp [Reset, forLEDIdx_apply, setColor_color]
  · intro i
    simp [Reset, forLEDIdx_apply, setColor_color]
  · simp [changeEvent]

/-- C5: after SetLevelMeterType(MT_SLIM_BAR) the display mode is MT_SLIM_BAR
and every cell is RL_DISABLED, whatever the mode and the cells were. -/
theorem SetLevelMeterType_slim {g : Global} (m : CLevelMeter g) :
    (SetLevelMeterType ELevelMeterType.MT_SLIM_BAR m).eLevelMeterType
        = ELevelMeterType.MT_SLIM_BAR
    ∧ ∀ i, ((SetLevelMeterType ELevelMeterType.MT_SLIM_BAR m).vecpLEDs i).eCurLightColor
        = ELightColor.RL_DISABLED := by
  refine ⟨rfl, ?_⟩
  intro i
  simp [SetLevelMeterType, forLEDIdx_apply, setColor_color]

/-- C10: SetLevelMeterType(MT_LED) and SetLevelMeterType(MT_BAR) set the
display mode to their argument and leave every cell as it was; so after
SetLevelMeterType(MT_SLIM_BAR) followed by SetLevelMeterType(MT_LED) every cell
is still RL_DISABLED. -/
theorem SetLevelMeterType_led_bar_keep_cells {g : Global} (m : CLevelMeter g) :
    (SetLevelMeterType ELevelMeterType.MT_LED m).eLevelMeterType = ELevelMeterType.MT_LED
    ∧ (SetLevelMeterType ELevelMeterType.MT_LED m).vecpLEDs = m.vecpLEDs
    ∧ (SetLevelMeterType ELevelMeterType.MT_BAR m).eLevelMeterType = ELevelMeterType.MT_BAR
    ∧ (SetLevelMeterType ELevelMeterType.MT_BAR m).vecpLEDs = m.vecpLEDs
    ∧ ∀ i, ((SetLevelMeterType ELevelMeterType.MT_LED
              (SetLevelMeterType ELevelMeterType.MT_SLIM_BAR m)).vecpLEDs i).eCurLightColor
        = ELightColor.RL_DISABLED := by
  refine ⟨rfl, rfl, rfl, rfl, ?_⟩
  intro i
  simp [SetLevelMeterType, forLEDIdx_apply, setColor_color]


/-! ## SetValue on an enabled meter: the LED display -/

/-- C1, as stated, fails at NaN: on the enabled example meter in MT_LED mode
SetValue(NaN) leaves every cell black, cell 0 among them, although 0 >= NaN is
false (as is 0 < NaN). -/
theorem SetValue_led_nan_black :
    ∃ m', SetValue exactProduct Double.nan exampleLedMeter = some m'
      ∧ (∀ i, (m'.vecpLEDs i).eCurLightColor = ELightColor.RL_BLACK)
      ∧ (m'.vecpLEDs ⟨0, by decide⟩).eCurLightColor = ELightColor.RL_BLACK
      ∧ ¬ (Double.nan ≤ Double.ofInt 0)
      ∧ ¬ (Double.ofInt 0 < Double.nan) := by
  have hcol : ∀ (m' : CLevelMeter exampleGlobal),
      SetValue exactProduct Double.nan exampleLedMeter = some m' →
      ∀ i, (m'.vecpLEDs i).eCurLightColor = ELightColor.RL_BLACK := by
    intro m' h i
    rw [SetValue_led_color exactProduct Double.nan exampleLedMeter m' rfl rfl h i]
    rfl
  refine ⟨_, SetValue_led_eq exactProduct Double.nan exampleLedMeter rfl rfl, ?_, ?_, ?_, ?_⟩
  · exact hcol _ (SetValue_led_eq exactProduct Double.nan exampleLedMeter rfl rfl)
  · exact hcol _ (SetValue_led_eq exactProduct Double.nan exampleLedMeter rfl rfl) _
  · exact Double.not_nan_le _
  · decide

/-- C1, amended: on an enabled meter in MT_LED mode, for every level value v
(any double), every step count and thresholds with YELLOW_BOUND <= RED_BOUND
(the bounds 0 <= YELLOW_BOUND and RED_BOUND <= N of the claim are not needed),
and every prior state, SetValue(v) returns, and afterwards cell i is green iff
i < v and i < YELLOW_BOUND, yellow iff i < v and YELLOW_BOUND <= i < RED_BOUND,
red iff i < v and RED_BOUND <= i, and black iff not i < v, which is v <= i
whenever v is not NaN. -/
theorem SetValue_led_cells {g : Global} (rnd : ℚ → Double) (v : Double) (m : CLevelMeter g)
    (hYR : g.YELLOW_BOUND_LED_BAR ≤ g.RED_BOUND_LED_BAR)
    (hen : m.enabled = true) (hty : m.eLevelMeterType = ELevelMeterType.MT_LED) :
    ∃ m', SetValue rnd v m = some m' ∧ ∀ i : Fin g.NUM_STEPS_LED_BAR,
      ((m'.vecpLEDs i).eCurLightColor = ELightColor.RL_GREEN
          ↔ Double.ofInt ((i : Nat) : Int) < v ∧ ((i : Nat) : Int) < g.YELLOW_BOUND_LED_BAR)
      ∧ ((m'.vecpLEDs i).eCurLightColor = ELightColor.RL_YELLOW
          ↔ Double.ofInt ((i : Nat) : Int) < v ∧ g.YELLOW_BOUND_LED_BAR ≤ ((i : Nat) : Int)
            ∧ ((i : Nat) : Int) < g.RED_BOUND_LED_BAR)
      ∧ ((m'.vecpLEDs i).eCurLightColor = ELightColor.RL_RED
          ↔ Double.ofInt ((i : Nat) : Int) < v ∧ g.RED_BOUND_LED_BAR ≤ ((i : Nat) : Int))
      ∧ ((m'.vecpLEDs i).eCurLightColor = ELightColor.RL_BLACK
          ↔ ¬ Double.ofInt ((i : Nat) : Int) < v)
      ∧ (v ≠ Double.nan →
          ((m'.vecpLEDs i).eCurLightColor = ELightColor.RL_BLACK
            ↔ v ≤ Double.ofInt ((i : Nat) : Int))) := by
  refine ⟨_, SetValue_led_eq rnd v m hen hty, ?_⟩
  intro i
  have hle : v ≠ Double.nan →
      (v ≤ Double.ofInt ((i : Nat) : Int) ↔ ¬ Double.ofInt ((i : Nat) : Int) < v) :=
    fun hv => Double.le_iff_not_lt v _ hv (by simp [Double.ofInt])
  rw [SetValue_led_color rnd v m _ hen hty (SetValue_led_eq rnd v m hen hty) i]
  by_cases h1 : Double.ofInt ((i : Nat) : Int) < v
  · by_cases h2 : ((i : Nat) : Int) < g.YELLOW_BOUND_LED_BAR
    · have h3 : ¬ g.RED_BOUND_LED_BAR ≤ ((i : Nat) : Int) := by omega
      have h4 : ¬ g.YELLOW_BOUND_LED_BAR ≤ ((i : Nat) : Int) := by omega
      refine ⟨?_, ?_, ?_, ?_, fun hv => ?_⟩
      · simp [h1, h2]
      · simp [h1, h2, h4]
      · simp [h1, h2, h3]
      · simp [h1, h2]
      · rw [hle hv]
        simp [h1, h2]
    · have h4 : g.YELLOW_BOUND_LED_BAR ≤ ((i : Nat) : Int) := by omega
      by_cases h3 : ((i : Nat) : Int) < g.RED_BOUND_LED_BAR
      · have h5 : ¬ g.RED_BOUND_LED_BAR ≤ ((i : Nat) : Int) := by omega
        refine ⟨?_, ?_, ?_, ?_, fun hv => ?_⟩
        · simp [h1, h2, h3]
        · simp [h1, h2, h3, h4]
        · simp [h1, h2, h3, h5]
        · simp [h1, h2, h3]
        · rw [hle hv]
          simp [h1, h2, h3]
      · have h5 : g.RED_BOUND_LED_BAR ≤ ((i : Nat) : Int) := by omega
        refine ⟨?_, ?_, ?_, ?_, fun hv => ?_⟩
        · simp [h1, h2, h3]
        · simp [h1, h2, h3]
        · simp [h1, h2, h3, h5]
        · simp [h1, h2, h3]
        · rw [hle hv]
          simp [h1, h2, h3]
  · refine ⟨?_, ?_, ?_, ?_, fun hv => ?_⟩
    · simp [h1]
    · simp [h1]
    · simp [h1]
    · simp [h1]
    · rw [hle hv]
      simp [h1]

/-- C1 amended, at the worked example: 20 steps, yellow from 15, red from 18,
level value 16: cells 0..14 are green, cell 15 is yellow, cells 16..19 are
black. -/
theorem SetValue_led_cells_witness :
    ∃ m', SetValue exactProduct (Double.finite 16) exampleLedMeter = some m'
      ∧ List.ofFn (fun i => (m'.vecpLEDs i).eCurLightColor)
        = List.replicate 15 ELightColor.RL_GREEN ++ [ELightColor.RL_YELLOW]
          ++ List.replicate 4 ELightColor.RL_BLACK := by
  obtain ⟨m', hm', h⟩ :=
    SetValue_led_cells exactProduct (Double.finite 16) exampleLedMeter (by decide) rfl rfl
  refine ⟨m', hm', ?_⟩
  have key : ∀ i : Fin exampleGlobal.NUM_STEPS_LED_BAR,
      (m'.vecpLEDs i).eCurLightColor
        = if (i : Nat) < 15 then ELightColor.RL_GREEN
          else if (i : Nat) < 16 then ELightColor.RL_YELLOW
          else ELightColor.RL_BLACK := by
    intro i
    have hi := h i
    have hY : exampleGlobal.YELLOW_BOUND_LED_BAR = 15 := rfl
    have hR : exampleGlobal.RED_BOUND_LED_BAR = 18 := rfl
    rw [hY, hR] at hi
    simp only [Double.ofInt_lt_finite] at hi
    by_cases h15 : (i : Nat) < 15
    · rw [if_pos h15]
      have hq : (((i : Nat) : Int) : ℚ) < 15 := by exact_mod_cast h15
      exact hi.1.2 ⟨by linarith, by exact_mod_cast h15⟩
    · rw [if_neg h15]
      by_cases h16 : (i : Nat) < 16
      · rw [if_pos h16]
        have hq : (((i : Nat) : Int) : ℚ) < 16 := by exact_mod_cast h16
        exact hi.2.1.2 ⟨hq, by omega, by omega⟩
      · rw [if_neg h16]
        have hq : ¬ (((i : Nat) : Int) : ℚ) < 16 := by
          rw [not_lt]
          exact_mod_cast not_lt.mp h16
        exact hi.2.2.2.1.2 hq
  simp only [key]
  decide

/-- C8: on an enabled meter in MT_LED mode SetValue returns and saturates: for
every v <= 0 (minus infinity included) every cell is black and the cells are
those SetValue(0) gives; for every v >= N (plus infinity included) every cell
has its band colour (green below YELLOW_BOUND, else yellow below RED_BOUND,
else red), none is black, and the cells are those SetValue(N) gives; and for
every v, NaN included, no cell is left disabled. -/
theorem SetValue_led_saturates {g : Global} (rnd : ℚ → Double) (v : Double)
    (m : CLevelMeter g)
    (hen : m.enabled = true) (hty : m.eLevelMeterType = ELevelMeterType.MT_LED) :
    ∃ m', SetValue rnd v m = some m'
      ∧ (v ≤ Double.finite 0 →
          (∀ i, (m'.vecpLEDs i).eCurLightColor = ELightColor.RL_BLACK)
          ∧ ∃ m0, SetValue rnd (Double.finite 0) m = some m0 ∧ m'.vecpLEDs = m0.vecpLEDs)
      ∧ (Double.finite (g.NUM_STEPS_LED_BAR : ℚ) ≤ v →
          (∀ i : Fin g.NUM_STEPS_LED_BAR, (m'.vecpLEDs i).eCurLightColor
              = (if ((i : Nat) : Int) < g.YELLOW_BOUND_LED_BAR then ELightColor.RL_GREEN
                 else if ((i : Nat) : Int) < g.RED_BOUND_LED_BAR then ELightColor.RL_YELLOW
                 else ELightColor.RL_RED))
          ∧ (∀ i, (m'.vecpLEDs i).eCurLightColor ≠ ELightColor.RL_BLACK)
          ∧ ∃ mN, SetValue rnd (Double.finite (g.NUM_STEPS_LED_BAR : ℚ)) m = some mN
              ∧ m'.vecpLEDs = mN.vecpLEDs)
      ∧ (∀ i, (m'.vecpLEDs i).eCurLightColor ≠ ELightColor.RL_DISABLED) := by
  have hm' := SetValue_led_eq rnd v m hen hty
  have hnonneg : ∀ i : Fin g.NUM_STEPS_LED_BAR, (0 : ℚ) ≤ (((i : Nat) : Int) : ℚ) :=
    fun i => by exact_mod_cast Nat.zero_le _
  have hlt : ∀ i : Fin g.NUM_STEPS_LED_BAR,
      (((i : Nat) : Int) : ℚ) < (g.NUM_STEPS_LED_BAR : ℚ) := fun i => by
    exact_mod_cast i.isLt
  refine ⟨_, hm', ?_, ?_, ?_⟩
  · intro hv
    have hno : ∀ i : Fin g.NUM_STEPS_LED_BAR, ¬ Double.ofInt ((i : Nat) : Int) < v := by
      intro i h
      rcases Double.le_finite_cases _ _ hv with hinf | ⟨r, hr, hle⟩
      · rw [hinf] at h
        exact absurd h (Double.not_lt_negInf _)
      · rw [hr, Double.ofInt_lt_finite] at h
        exact absurd (lt_of_lt_of_le h hle) (not_lt.mpr (hnonneg i))
    have h0 := SetValue_led_eq rnd (Double.finite 0) m hen hty
    refine ⟨?_, _, h0, ?_⟩
    · intro i
      rw [SetValue_led_color rnd v m _ hen hty hm' i, if_neg (hno i)]
    · apply SetValue_led_congr rnd v (Double.finite 0) m _ _ hen hty hm' h0
      intro i
      refine ⟨fun h => absurd h (hno i), fun h => ?_⟩
      rw [Double.ofInt_lt_finite] at h
      exact absurd h (not_lt.mpr (hnonneg i))
  · intro hv
    have hyes : ∀ i : Fin g.NUM_STEPS_LED_BAR, Double.ofInt ((i : Nat) : Int) < v := by
      intro i
      rcases Double.finite_le_cases _ _ hv with hinf | ⟨r, hr, hle⟩
      · rw [hinf]
        rfl
      · rw [hr, Double.ofInt_lt_finite]
        exact lt_of_lt_of_le (hlt i) hle
    have hN := SetValue_led_eq rnd (Double.finite (g.NUM_STEPS_LED_BAR : ℚ)) m hen hty
    refine ⟨?_, ?_, _, hN, ?_⟩
    · intro i
      rw [SetValue_led_color rnd v m _ hen hty hm' i, if_pos (hyes i)]
    · intro i
      rw [SetValue_led_color rnd v m _ hen hty hm' i, if_pos (hyes i)]
      split_ifs <;> decide
    · apply SetValue_led_congr rnd v _ m _ _ hen hty hm' hN
      intro i
      refine ⟨fun _ => ?_, fun _ => hyes i⟩
      rw [Double.ofInt_lt_finite]
      exact hlt i
  · intro i
    rw [SetValue_led_color rnd v m _ hen hty hm' i]
    split_ifs <;> decide

/-- C8 at a concrete input: 20 steps, level values -3 (below the range) and 25
(above it). -/
theorem SetValue_led_saturates_witness :
    (∃ m' m0, SetValue exactProduct (Double.finite (-3)) exampleLedMeter = some m'
      ∧ SetValue exactProduct (Double.finite 0) exampleLedMeter = some m0
      ∧ m'.vecpLEDs = m0.vecpLEDs
      ∧ (m'.vecpLEDs ⟨0, by decide⟩).eCurLightColor = ELightColor.RL_BLACK)
    ∧ (∃ m' mN, SetValue exactProduct (Double.finite 25) exampleLedMeter = some m'
      ∧ SetValue exactProduct (Double.finite ((20 : Nat) : ℚ)) exampleLedMeter = some mN
      ∧ m'.vecpLEDs = mN.vecpLEDs
      ∧ (m'.vecpLEDs ⟨19, by decide⟩).eCurLightColor = ELightColor.RL_RED) := by
  obtain ⟨ml, hml, hlow, _, _⟩ :=
    SetValue_led_saturates exactProduct (Double.finite (-3)) exampleLedMeter rfl rfl
  obtain ⟨mh, hmh, _, hhigh, _⟩ :=
    SetValue_led_saturates exactProduct (Double.finite 25) exampleLedMeter rfl rfl
  have h1 := hlow ((Double.finite_le_finite _ _).mpr (by norm_num))
  have h2 := hhigh ((Double.finite_le_finite _ _).mpr (by norm_num [exampleGlobal]))
  obtain ⟨hblack, m0, hm0, heq0⟩ := h1
  obtain ⟨hband, _, mN, hmN, heqN⟩ := h2
  refine ⟨⟨ml, m0, hml, hm0, heq0, hblack _⟩, ⟨mh, mN, hmh, hmN, heqN, ?_⟩⟩
  rw [hband ⟨19, by decide⟩]
  decide

/-- C9, as stated, fails: with 20 steps and level value 5/2, which truncates
to 2, cell 2 is lit after SetValue(5/2) and black after SetValue(2); three cells
are not black, not two. -/
theorem SetValue_led_not_truncated :
    truncate (5 / 2) = 2
    ∧ ∃ m' mt, SetValue exactProduct (Double.finite (5 / 2)) exampleLedMeter = some m'
      ∧ SetValue exactProduct (Double.finite ((truncate (5 / 2) : Int) : ℚ)) exampleLedMeter
          = some mt
      ∧ m'.vecpLEDs ≠ mt.vecpLEDs
      ∧ (m'.vecpLEDs ⟨2, by decide⟩).eCurLightColor = ELightColor.RL_GREEN
      ∧ (mt.vecpLEDs ⟨2, by decide⟩).eCurLightColor = ELightColor.RL_BLACK
      ∧ numNotBlack m' = 3
      ∧ (numNotBlack m' : Int) ≠ truncate (5 / 2) := by
  obtain ⟨m', hm'⟩ : ∃ m',
      SetValue exactProduct (Double.finite (5 / 2)) exampleLedMeter = some m' :=
    ⟨_, SetValue_led_eq exactProduct (Double.finite (5 / 2)) exampleLedMeter rfl rfl⟩
  obtain ⟨mt, hmt⟩ : ∃ mt,
      SetValue exactProduct (Double.finite ((truncate (5 / 2) : Int) : ℚ)) exampleLedMeter
        = some mt :=
    ⟨_, SetValue_led_eq exactProduct _ exampleLedMeter rfl rfl⟩
  have hcount := numNotBlack_SetValue exactProduct (5 / 2) exampleLedMeter _ rfl rfl hm'
  rw [ceil_5_2] at hcount
  have hY : exampleGlobal.YELLOW_BOUND_LED_BAR = 15 := rfl
  have hgreen := SetValue_led_color exactProduct _ exampleLedMeter _ rfl rfl hm' ⟨2, by decide⟩
  rw [hY, if_pos ((Double.ofInt_lt_finite _ _).mpr (by norm_num)), if_pos (by norm_num)]
    at hgreen
  have hblack := SetValue_led_color exactProduct _ exampleLedMeter _ rfl rfl hmt ⟨2, by decide⟩
  rw [truncate_5_2, if_neg (fun h => absurd ((Double.ofInt_lt_finite _ _).mp h) (by norm_num))]
    at hblack
  refine ⟨truncate_5_2, m', mt, hm', hmt, ?_, hgreen, hblack, ?_, ?_⟩
  · intro heq
    have h2 := congrArg (fun f => (f ⟨2, by decide⟩).eCurLightColor) heq
    dsimp only at h2
    rw [hgreen, hblack] at h2
    exact absurd h2 (by decide)
  · rw [hcount]
    decide
  · rw [hcount, truncate_5_2]
    decide

/-- C9, amended: on an enabled meter in MT_LED mode, for every level value v in
[0, N] (such a v is finite), SetValue(v) gives the cells SetValue(ceil(v))
gives, and the number of cells that are not black is v rounded up to an
integer. -/
theorem SetValue_led_rounds_up {g : Global} (rnd : ℚ → Double) (v : Double)
    (m : CLevelMeter g)
    (hen : m.enabled = true) (hty : m.eLevelMeterType = ELevelMeterType.MT_LED)
    (h0 : Double.finite 0 ≤ v) (hN : v ≤ Double.finite (g.NUM_STEPS_LED_BAR : ℚ)) :
    ∃ q : ℚ, v = Double.finite q ∧ ∃ m' mc, SetValue rnd v m = some m'
      ∧ SetValue rnd (Double.finite ((⌈q⌉ : Int) : ℚ)) m = some mc
      ∧ m'.vecpLEDs = mc.vecpLEDs
      ∧ (numNotBlack m' : Int) = ⌈q⌉ := by
  rcases Double.le_finite_cases _ _ hN with hinf | ⟨q, hq, hqN⟩
  · rw [hinf] at h0
    exact absurd h0 (by decide)
  · subst hq
    have hq0 : 0 ≤ q := (Double.finite_le_finite _ _).mp h0
    have hm' := SetValue_led_eq rnd (Double.finite q) m hen hty
    have hmc := SetValue_led_eq rnd (Double.finite ((⌈q⌉ : Int) : ℚ)) m hen hty
    refine ⟨q, rfl, _, _, hm', hmc, ?_, ?_⟩
    · apply SetValue_led_congr rnd _ _ m _ _ hen hty hm' hmc
      intro i
      exact lt_ceil_cast i q
    · rw [numNotBlack_SetValue rnd q m _ hen hty hm']
      have hc0 : 0 ≤ ⌈q⌉ := Int.ceil_nonneg hq0
      have hcN : ⌈q⌉ ≤ (g.NUM_STEPS_LED_BAR : Int) := by
        rw [Int.ceil_le]
        exact_mod_cast hqN
      omega

/-- C9 amended, at a concrete input: 20 steps, level value 5/2, three cells
not black, the cells of SetValue(3). -/
theorem SetValue_led_rounds_up_witness :
    ⌈(5 / 2 : ℚ)⌉ = 3
    ∧ ∃ m' mc, SetValue exactProduct (Double.finite (5 / 2)) exampleLedMeter = some m'
      ∧ SetValue exactProduct (Double.finite 3) exampleLedMeter = some mc
      ∧ m'.vecpLEDs = mc.vecpLEDs
      ∧ (numNotBlack m' : Int) = 3 := by
  obtain ⟨q, hq, m', mc, hm', hmc, heq, hnum⟩ :=
    SetValue_led_rounds_up exactProduct (Double.finite (5 / 2)) exampleLedMeter rfl rfl
      ((Double.finite_le_finite _ _).mpr (by norm_num))
      ((Double.finite_le_finite _ _).mpr (by norm_num [exampleGlobal]))
  injection hq with hq
  subst hq
  rw [ceil_5_2] at hmc hnum
  exact ⟨ceil_5_2, m', mc, hm', by exact_mod_cast hmc, heq, hnum⟩

/-! ## SetValue on an enabled meter: the bar -/

/-- C2, as stated, fails, on a freshly constructed enabled meter (mode MT_BAR):
SetValue(0.125) hands 12 to the bar, while 100 * 0.125 is 12.5; for the level
value 10^10 the product 10^12 does not fit an int, so that the conversion at
the call of setValue is undefined and no value 100 * v is set (both products
are doubles, so the rounding returns them as they are); and the same holds for
NaN and plus infinity, whose products are NaN and plus infinity. -/
theorem SetValue_bar_not_product :
    (∃ m', SetValue exactProduct (Double.finite (1 / 8)) (CLevelMeter.ctor exampleGlobal true)
        = some m'
      ∧ m'.pBarMeter.lastSetValue = some 12)
    ∧ ((12 : Int) : ℚ) ≠ 100 * (1 / 8)
    ∧ SetValue exactProduct (Double.finite 10000000000) (CLevelMeter.ctor exampleGlobal true)
        = none
    ∧ SetValue exactProduct Double.nan (CLevelMeter.ctor exampleGlobal true) = none
    ∧ SetValue exactProduct Double.posInf (CLevelMeter.ctor exampleGlobal true) = none := by
  refine ⟨?_, by norm_num, ?_, ?_, ?_⟩
  · rw [SetValue_bar_eq exactProduct _ (CLevelMeter.ctor exampleGlobal true) rfl (Or.inl rfl)]
    have hp : (100 * (1 / 8) : ℚ) = 25 / 2 := by norm_num
    have hc : doubleToInt (Double.mul100 exactProduct (Double.finite (1 / 8))) = some 12 := by
      show doubleToInt (Double.finite (100 * (1 / 8))) = some 12
      rw [hp, doubleToInt_finite_of_fits _ (by rw [truncate_25_2]; decide)
        (by rw [truncate_25_2]; decide), truncate_25_2]
    rw [hc]
    exact ⟨_, rfl, rfl⟩
  · rw [SetValue_bar_eq exactProduct _ (CLevelMeter.ctor exampleGlobal true) rfl (Or.inl rfl)]
    have hp : (100 * 10000000000 : ℚ) = ((1000000000000 : Int) : ℚ) := by norm_num
    have hc : doubleToInt (Double.mul100 exactProduct (Double.finite 10000000000)) = none := by
      show doubleToInt (Double.finite (100 * 10000000000)) = none
      rw [hp]
      apply doubleToInt_finite_of_large
      rw [truncate_intCast]
      decide
    rw [hc]
    rfl
  · rw [SetValue_bar_eq exactProduct _ (CLevelMeter.ctor exampleGlobal true) rfl (Or.inl rfl)]
    rfl
  · rw [SetValue_bar_eq exactProduct _ (CLevelMeter.ctor exampleGlobal true) rfl (Or.inl rfl)]
    rfl

/-- C2, amended: on an enabled meter in MT_BAR or MT_SLIM_BAR mode, with a
rounding of the double product as IsRounding describes it: for every finite
level value v whose product 100 * v lies in the int range, SetValue(v) returns
and the only change is that the bar is handed, by setValue, an integer k that
is the double product converted to int: k lies between floor(100 * v) and
ceil(100 * v), it is 100 * v whenever that is an integer (as for every integer
v), it is 100 * v with the fractional part dropped whenever the double product
is the exact one, and it lies in [0, 100 * N] whenever v lies in [0, N].  For
NaN, the infinities and every v with 100 * v >= 2^31 or 100 * v <= -2^31 - 1
the conversion to int, and with it SetValue, is undefined.  The range the
constructor gives the bar is exactly [0, 100 * N] with N = NUM_STEPS_LED_BAR,
and SetLevelMeterType and Reset leave the range as it is. -/
theorem SetValue_bar_value {g : Global} (rnd : ℚ → Double) (hrnd : IsRounding rnd)
    (v : Double) (m : CLevelMeter g)
    (hen : m.enabled = true)
    (hty : m.eLevelMeterType = ELevelMeterType.MT_BAR
      ∨ m.eLevelMeterType = ELevelMeterType.MT_SLIM_BAR) :
    (∀ q : ℚ, v = Double.finite q →
        ((INT_MIN : Int) : ℚ) ≤ 100 * q → 100 * q ≤ ((INT_MAX : Int) : ℚ) →
        ∃ k : Int,
          SetValue rnd v m = some { m with pBarMeter := m.pBarMeter.setValue k }
          ∧ ⌊100 * q⌋ ≤ k ∧ k ≤ ⌈100 * q⌉
          ∧ (∀ j : Int, 100 * q = (j : ℚ) → k = j)
          ∧ (rnd (100 * q) = Double.finite (100 * q) →
              (0 ≤ q → k = ⌊100 * q⌋) ∧ (q ≤ 0 → k = ⌈100 * q⌉))
          ∧ (0 ≤ q → q ≤ (g.NUM_STEPS_LED_BAR : ℚ) →
              0 ≤ k ∧ k ≤ 100 * (g.NUM_STEPS_LED_BAR : Int)))
    ∧ ((v = Double.nan ∨ v = Double.negInf ∨ v = Double.posInf
          ∨ ∃ q : ℚ, v = Double.finite q
              ∧ ((2 : ℚ) ^ 31 ≤ 100 * q ∨ 100 * q ≤ -(2 : ℚ) ^ 31 - 1)) →
        SetValue rnd v m = none)
    ∧ (∀ b, (CLevelMeter.ctor g b).pBarMeter.minimum = 0
        ∧ (CLevelMeter.ctor g b).pBarMeter.maximum = 100 * (g.NUM_STEPS_LED_BAR : Int))
    ∧ (∀ t, (SetLevelMeterType t m).pBarMeter.minimum = m.pBarMeter.minimum
        ∧ (SetLevelMeterType t m).pBarMeter.maximum = m.pBarMeter.maximum)
    ∧ (∀ b, (Reset b m).pBarMeter = m.pBarMeter) := by
  refine ⟨?_, ?_, ?_, ?_, ?_⟩
  · intro q hq hlo hhi
    subst hq
    have hfl : INT_MIN ≤ ⌊100 * q⌋ := Int.le_floor.mpr hlo
    have hcl : ⌈100 * q⌉ ≤ INT_MAX := Int.ceil_le.mpr hhi
    have hmin : INT_MIN = -2147483648 := rfl
    have hmax : INT_MAX = 2147483647 := rfl
    obtain ⟨r, hr, hr1, hr2⟩ := hrnd.between (100 * q) (by omega) (by omega)
    have hk := truncate_between r _ _ hr1 hr2
    have hconv : doubleToInt (Double.mul100 rnd (Double.finite q)) = some (truncate r) := by
      show doubleToInt (rnd (100 * q)) = some (truncate r)
      rw [hr]
      exact doubleToInt_finite_of_fits r (by omega) (by omega)
    refine ⟨truncate r, ?_, hk.1, hk.2, ?_, ?_, ?_⟩
    · rw [SetValue_bar_eq rnd _ m hen hty, hconv]
      rfl
    · intro j hj
      have h1 : ⌊100 * q⌋ = j := by rw [hj]; exact Int.floor_intCast j
      have h2 : ⌈100 * q⌉ = j := by rw [hj]; exact Int.ceil_intCast j
      omega
    · intro hex
      rw [hr] at hex
      injection hex with hex
      subst hex
      constructor
      · intro hq0
        have hp0 : (0 : ℚ) ≤ 100 * q := by linarith
        unfold truncate
        rw [if_pos hp0]
      · intro hq0
        rcases eq_or_lt_of_le hq0 with h | h
        · subst h
          simp [truncate]
        · have hp0 : ¬ (0 : ℚ) ≤ 100 * q := by
            rw [not_le]
            linarith
          unfold truncate
          rw [if_neg hp0]
    · intro hq0 hqN
      have h1 : 0 ≤ ⌊100 * q⌋ := Int.floor_nonneg.mpr (by linarith)
      have h2 : ⌈100 * q⌉ ≤ 100 * (g.NUM_STEPS_LED_BAR : Int) := by
        rw [Int.ceil_le]
        push_cast
        linarith
      omega
  · intro hv
    rw [SetValue_bar_eq rnd v m hen hty]
    have hconv : doubleToInt (Double.mul100 rnd v) = none := by
      rcases hv with h | h | h | ⟨q, h, hq⟩
      · rw [h]
        rfl
      · rw [h]
        rfl
      · rw [h]
        rfl
      · rw [h]
        show doubleToInt (rnd (100 * q)) = none
        rcases hq with hq | hq
        · exact hrnd.large _ hq
        · exact hrnd.small _ hq
    rw [hconv]
    rfl
  · intro b
    exact ⟨rfl, rfl⟩
  · intro t
    cases t <;> exact ⟨rfl, rfl⟩
  · intro b
    rfl

/-- C2 amended, at a concrete input: a freshly constructed enabled meter with
20 steps (mode MT_BAR), level value 16: the bar is handed 1600, and its range
is [0, 2000]. -/
theorem SetValue_bar_value_witness :
    (∃ m', SetValue exactProduct (Double.finite 16) (CLevelMeter.ctor exampleGlobal true)
        = some m'
      ∧ m'.pBarMeter.lastSetValue = some 1600)
    ∧ (CLevelMeter.ctor exampleGlobal true).pBarMeter.minimum = 0
    ∧ (CLevelMeter.ctor exampleGlobal true).pBarMeter.maximum = 2000 := by
  have h := SetValue_bar_value exactProduct isRounding_exactProduct (Double.finite 16)
    (CLevelMeter.ctor exampleGlobal true) rfl (Or.inl rfl)
  obtain ⟨k, hk, _, _, hint, _, _⟩ := h.1 16 rfl (by norm_num [INT_MIN]) (by norm_num [INT_MAX])
  have hk16 : k = 1600 := hint 1600 (by norm_num)
  subst hk16
  exact ⟨⟨_, hk, rfl⟩, (h.2.2.1 true).1, (h.2.2.1 true).2⟩

end LevelMeter
